import Mathlib

/-!
Verification development for the chain chat relay server
(src/Server/server.cpp and the wire message model).

The definitions below are shallow embeddings of the C++ source:
machine strings are Lean strings, the UDP endpoint is an abstract
address/port pair, and each server method becomes a pure function on an
explicit state record.  Observable network activity of relayUDP is
returned as a list of events.
-/

/-- Abstract model of a boost asio UDP endpoint: an address and a port. -/
structure udpEndpoint where
  host : String
  port : Nat
  deriving DecidableEq

/-- Embedding of the remoteConnection class: identifier plus endpoint. -/
structure remoteConnection where
  identifier : String
  endpoint : udpEndpoint
  deriving DecidableEq

/-- Embedding of constants::MessageType. -/
inductive MessageType where
  | CONNECTION
  | DISCONNECT
  | CHAT
  | PRIVATE_MESSAGE
  | SYNC_LEFT
  | SYNC_RIGHT
  deriving DecidableEq

/-- The type-dependent payload of a wire message: nothing for
connection control, free text for chat, an identifier list for sync. -/
inductive MessagePayload where
  | empty : MessagePayload
  | text : String → MessagePayload
  | idList : List String → MessagePayload
  deriving DecidableEq

/-- Embedding of the dataMessage value: type, source identifier,
destination identifier, and the type-dependent payload. -/
structure dataMessage where
  messageType : MessageType
  sourceIdentifier : String
  destinationIdentifier : String
  payload : MessagePayload
  deriving DecidableEq

/-- Embedding of dataMessage::viewServerSyncPayload: the identifier list
carried by a sync message (empty when the payload is not an id list). -/
def viewServerSyncPayload (m : dataMessage) : List String :=
  match m.payload with
  | MessagePayload.idList l => l
  | _ => []

/-- The mutable registry of one server instance, from the member
variables of the server class. -/
structure serverState where
  connectedClients : List remoteConnection
  leftAdjacentServerConnection : Option remoteConnection
  rightAdjacentServerConnection : Option remoteConnection
  leftAdjacentServerConnectedClients : List String
  rightAdjacentServerConnectedClients : List String
  messageQueue : List dataMessage
  deriving DecidableEq

/-- Observable network activity of one relayUDP call: a UDP send to a
concrete endpoint, a dereference of a null neighbor connection pointer
(undefined behavior in the C++ source), or the destination-not-found
console notice. -/
inductive RelayEvent where
  | sendTo : udpEndpoint → RelayEvent
  | nullDeref : RelayEvent
  | droppedNotice : String → RelayEvent
  deriving DecidableEq

/-- Embedding of server::relayUDP (server.cpp lines 189-271).  Broadcast
messages go to every connected client other than the sender.  Unicast
messages go to the first matching connected client; otherwise, when the
LEFT neighbor connection pointer is non-null, the left roster is
searched and then (still under the left-pointer guard, exactly as in the
source at line 245) the right roster is searched, sending to the right
neighbor connection pointer, which may be null.  When nothing matches,
the message is dropped with a console notice. -/
def relayUDP (s : serverState) (m : dataMessage) : List RelayEvent :=
  if m.destinationIdentifier = "broadcast" then
    (s.connectedClients.filter
      (fun c => c.identifier != m.sourceIdentifier)).map
      (fun c => RelayEvent.sendTo c.endpoint)
  else
    match s.connectedClients.find?
        (fun c => c.identifier == m.destinationIdentifier) with
    | some c => [RelayEvent.sendTo c.endpoint]
    | none =>
      match s.leftAdjacentServerConnection with
      | some leftConn =>
        if m.destinationIdentifier ∈ s.leftAdjacentServerConnectedClients then
          [RelayEvent.sendTo leftConn.endpoint]
        else if m.destinationIdentifier ∈ s.rightAdjacentServerConnectedClients then
          match s.rightAdjacentServerConnection with
          | some rightConn => [RelayEvent.sendTo rightConn.endpoint]
          | none => [RelayEvent.nullDeref]
        else
          [RelayEvent.droppedNotice m.destinationIdentifier]
      | none =>
        [RelayEvent.droppedNotice m.destinationIdentifier]

/-- Embedding of server::removeClientConnection (server.cpp lines
465-478).  The break statement in the source sits outside the if block,
so the loop body runs at most once: the head of the list is erased when
it matches, and otherwise the list is left untouched. -/
def removeClientConnection (clients : List remoteConnection)
    (inClientUsername : String) : List remoteConnection :=
  match clients with
  | [] => []
  | c :: rest =>
    if c.identifier = inClientUsername then rest else c :: rest

/-- Embedding of server::addClientConnection: append a new
remoteConnection built from the source identifier and sender endpoint. -/
def addClientConnection (clients : List remoteConnection)
    (inClientUsername : String) (inClientEndpoint : udpEndpoint) :
    List remoteConnection :=
  clients ++ [⟨inClientUsername, inClientEndpoint⟩]

/-- Embedding of server::receiveClientsFromAdjacentServers (server.cpp
lines 422-447): a SYNC_LEFT message overwrites the right roster with the
sync payload, a SYNC_RIGHT message overwrites the left roster; any other
type is an assertion failure in the source and is modelled as a no-op. -/
def receiveClientsFromAdjacentServers (s : serverState)
    (inSyncMessage : dataMessage) : serverState :=
  match inSyncMessage.messageType with
  | MessageType.SYNC_LEFT =>
    { s with rightAdjacentServerConnectedClients :=
        viewServerSyncPayload inSyncMessage }
  | MessageType.SYNC_RIGHT =>
    { s with leftAdjacentServerConnectedClients :=
        viewServerSyncPayload inSyncMessage }
  | _ => s

/-- One iteration of the message dispatch switch of server::listenLoop
(server.cpp lines 112-152): connection control mutates the client list,
sync messages update the rosters and skip the queue (the continue
statement), and every non-sync message is appended to the relay queue. -/
def ingestMessage (s : serverState) (m : dataMessage)
    (clientEndpoint : udpEndpoint) : serverState :=
  match m.messageType with
  | MessageType.CONNECTION =>
    { s with
        connectedClients :=
          addClientConnection s.connectedClients m.sourceIdentifier clientEndpoint,
        messageQueue := s.messageQueue ++ [m] }
  | MessageType.DISCONNECT =>
    { s with
        connectedClients :=
          removeClientConnection s.connectedClients m.sourceIdentifier,
        messageQueue := s.messageQueue ++ [m] }
  | MessageType.CHAT =>
    { s with messageQueue := s.messageQueue ++ [m] }
  | MessageType.PRIVATE_MESSAGE =>
    { s with messageQueue := s.messageQueue ++ [m] }
  | MessageType.SYNC_LEFT => receiveClientsFromAdjacentServers s m
  | MessageType.SYNC_RIGHT => receiveClientsFromAdjacentServers s m

/-- Outcome of one side of one iteration of
server::maintainToAdjacentServers: the new connection slot, whether an
address resolution was attempted, and whether a sync send was attempted. -/
structure slotStepResult where
  slot : Option remoteConnection
  attemptedResolution : Bool
  sentSync : Bool
  deriving DecidableEq

/-- One side of one iteration of server::maintainToAdjacentServers
(server.cpp lines 293-344 for the left side, 352-404 for the right).
valid is the topology predicate for the neighbor position;
resolveResult is the outcome of the address resolution attempt (none
models the catch branch that leaves the pointer null); sendOk is the
outcome of the sync send, which the source catches and ignores, leaving
the slot untouched either way. -/
def maintainSlotStep (valid : Bool) (slot : Option remoteConnection)
    (resolveResult : Option remoteConnection) (sendOk : Bool) :
    slotStepResult :=
  if valid then
    match slot with
    | none => ⟨resolveResult, true, false⟩
    | some c => ⟨some c, false, true⟩
  else
    ⟨slot, false, false⟩

/-- Iterated maintainSlotStep over a list of per-tick oracles (one
resolution outcome and one send outcome per tick); returns the final
slot and whether any resolution was ever attempted. -/
def maintainSlotRun (valid : Bool) (slot : Option remoteConnection) :
    List (Option remoteConnection × Bool) → Option remoteConnection × Bool
  | [] => (slot, false)
  | (r, b) :: rest =>
    let st := maintainSlotStep valid slot r b
    let fin := maintainSlotRun valid st.slot rest
    (fin.1, st.attemptedResolution || fin.2)

/-!
Wire codec.  Modelled from the spec: the repository's dataMessage codec
(src/Common/dataMessage.h, the encode and decode of section 4.1) is not
among the provided server and client sources, so the byte layout below
is built from the spec wording: a tagged structure with a type tag, the
source identifier, the destination identifier, and a type-dependent
body, self-describing enough to decode deterministically.  Identifier
and text fields are length-prefixed byte strings; the sync body carries
a count followed by the identifiers.  Decoding a truncated buffer or an
unrecognized type tag yields none, which models the MalformedMessage
error.
-/

/-- Modelled from the spec: byte encoding of one string field (its
characters as numeric codes). -/
def strToBytes (s : String) : List Nat :=
  s.toList.map Char.toNat

/-- Modelled from the spec: decoding of a string field body. -/
def bytesToStr (l : List Nat) : String :=
  (l.map Char.ofNat).asString

/-- Modelled from the spec: a length-prefixed string field. -/
def encStr (s : String) : List Nat :=
  s.toList.length :: strToBytes s

/-- Modelled from the spec: parse one length-prefixed string field,
returning the field and the remaining bytes, or none when truncated. -/
def decStr : List Nat → Option (String × List Nat)
  | [] => none
  | n :: rest =>
    if n ≤ rest.length then
      some (bytesToStr (rest.take n), rest.drop n)
    else
      none

/-- Modelled from the spec: the numeric tag of each message type. -/
def typeTag : MessageType → Nat
  | MessageType.CONNECTION => 0
  | MessageType.DISCONNECT => 1
  | MessageType.CHAT => 2
  | MessageType.PRIVATE_MESSAGE => 3
  | MessageType.SYNC_LEFT => 4
  | MessageType.SYNC_RIGHT => 5

/-- Modelled from the spec: tag decoding; none is an unrecognized tag. -/
def tagToType : Nat → Option MessageType
  | 0 => some MessageType.CONNECTION
  | 1 => some MessageType.DISCONNECT
  | 2 => some MessageType.CHAT
  | 3 => some MessageType.PRIVATE_MESSAGE
  | 4 => some MessageType.SYNC_LEFT
  | 5 => some MessageType.SYNC_RIGHT
  | _ => none

/-- Modelled from the spec: byte encoding of the type-dependent body. -/
def encPayload : MessagePayload → List Nat
  | MessagePayload.empty => []
  | MessagePayload.text s => encStr s
  | MessagePayload.idList ids => ids.length :: (ids.map encStr).flatten

/-- Modelled from the spec: parse a counted sequence of identifier
fields. -/
def decIds : Nat → List Nat → Option (List String × List Nat)
  | 0, r => some ([], r)
  | Nat.succ k, r =>
    match decStr r with
    | none => none
    | some (s, r1) =>
      match decIds k r1 with
      | none => none
      | some (ids, r2) => some (s :: ids, r2)

/-- Modelled from the spec: parse the type-dependent body, requiring the
buffer to be fully consumed (trailing bytes are malformed). -/
def decPayload : MessageType → List Nat → Option MessagePayload
  | MessageType.CONNECTION, r =>
    if r = [] then some MessagePayload.empty else none
  | MessageType.DISCONNECT, r =>
    if r = [] then some MessagePayload.empty else none
  | MessageType.CHAT, r =>
    match decStr r with
    | some (s, []) => some (MessagePayload.text s)
    | _ => none
  | MessageType.PRIVATE_MESSAGE, r =>
    match decStr r with
    | some (s, []) => some (MessagePayload.text s)
    | _ => none
  | MessageType.SYNC_LEFT, r =>
    match r with
    | [] => none
    | cnt :: r1 =>
      match decIds cnt r1 with
      | some (ids, []) => some (MessagePayload.idList ids)
      | _ => none
  | MessageType.SYNC_RIGHT, r =>
    match r with
    | [] => none
    | cnt :: r1 =>
      match decIds cnt r1 with
      | some (ids, []) => some (MessagePayload.idList ids)
      | _ => none

/-- Modelled from the spec: serialize one message to bytes. -/
def encode (m : dataMessage) : List Nat :=
  typeTag m.messageType ::
    (encStr m.sourceIdentifier ++
      (encStr m.destinationIdentifier ++ encPayload m.payload))

/-- Modelled from the spec: parse one datagram buffer; none models the
MalformedMessage error on truncated input or an unrecognized tag. -/
def decode (bs : List Nat) : Option dataMessage :=
  match bs with
  | [] => none
  | tag :: r0 =>
    match tagToType tag with
    | none => none
    | some t =>
      match decStr r0 with
      | none => none
      | some (src, r1) =>
        match decStr r1 with
        | none => none
        | some (dst, r2) =>
          match decPayload t r2 with
          | none => none
          | some p => some ⟨t, src, dst, p⟩

/-- A message is validly constructed when its payload variant is the one
its type selects: no payload for connection control, text for chat and
private messages, an identifier list for sync messages. -/
def payloadMatches (t : MessageType) (p : MessagePayload) : Bool :=
  match t, p with
  | MessageType.CONNECTION, MessagePayload.empty => true
  | MessageType.DISCONNECT, MessagePayload.empty => true
  | MessageType.CHAT, MessagePayload.text _ => true
  | MessageType.PRIVATE_MESSAGE, MessagePayload.text _ => true
  | MessageType.SYNC_LEFT, MessagePayload.idList _ => true
  | MessageType.SYNC_RIGHT, MessagePayload.idList _ => true
  | _, _ => false

theorem bytesToStr_strToBytes (s : String) : bytesToStr (strToBytes s) = s := by
  unfold bytesToStr strToBytes
  rw [List.map_map]
  have h : (Char.ofNat ∘ Char.toNat) = id := funext fun c => Char.ofNat_toNat c
  rw [h, List.map_id, String.asString_toList]

theorem decStr_encStr (s : String) (rest : List Nat) :
    decStr (encStr s ++ rest) = some (s, rest) := by
  have hlen : s.toList.length = (strToBytes s).length := by simp [strToBytes]
  simp only [encStr, List.cons_append, decStr]
  rw [hlen]
  rw [if_pos (by rw [List.length_append]; exact Nat.le_add_right _ _)]
  rw [List.take_left, List.drop_left, bytesToStr_strToBytes]

theorem decStr_encStr_nil (s : String) : decStr (encStr s) = some (s, []) := by
  have h := decStr_encStr s []
  simpa using h

theorem decIds_enc (ids : List String) (rest : List Nat) :
    decIds ids.length ((ids.map encStr).flatten ++ rest) = some (ids, rest) := by
  induction ids generalizing rest with
  | nil => simp [decIds]
  | cons x xs ih =>
    simp only [List.map_cons, List.flatten_cons, List.length_cons,
      List.append_assoc, decIds, decStr_encStr]
    rw [ih]

theorem decIds_enc_nil (ids : List String) :
    decIds ids.length (ids.map encStr).flatten = some (ids, []) := by
  have h := decIds_enc ids []
  simpa using h

theorem decPayload_encPayload (t : MessageType) (p : MessagePayload)
    (h : payloadMatches t p = true) :
    decPayload t (encPayload p) = some p := by
  cases t <;> cases p <;>
    simp_all [payloadMatches, decPayload, encPayload, decStr_encStr_nil,
      decIds_enc_nil]

theorem tagToType_typeTag (t : MessageType) : tagToType (typeTag t) = some t := by
  cases t <;> rfl

/-- C3: for every validly constructed Message (any of the six types,
with its type-appropriate payload variant), decoding the bytes produced
by encoding it yields the same Message: decode (encode m) = some m. -/
theorem decode_encode_roundtrip (m : dataMessage)
    (h : payloadMatches m.messageType m.payload = true) :
    decode (encode m) = some m := by
  obtain ⟨t, src, dst, p⟩ := m
  simp only [encode, decode, tagToType_typeTag, decStr_encStr,
    decPayload_encPayload t p h]

/-- Witness for C3 at a concrete sync message with two identifiers. -/
theorem decode_encode_roundtrip_witness :
    payloadMatches MessageType.SYNC_LEFT
      (MessagePayload.idList ["alpha", "beta"]) = true ∧
    decode (encode
      ⟨MessageType.SYNC_LEFT, "server1", "server0",
        MessagePayload.idList ["alpha", "beta"]⟩) =
      some ⟨MessageType.SYNC_LEFT, "server1", "server0",
        MessagePayload.idList ["alpha", "beta"]⟩ :=
  ⟨by decide,
   decode_encode_roundtrip
     ⟨MessageType.SYNC_LEFT, "server1", "server0",
       MessagePayload.idList ["alpha", "beta"]⟩ (by decide)⟩

/-! Concrete clients, neighbors and states used by the witnesses. -/

def clientA : remoteConnection := ⟨"A", ⟨"hostA", 1001⟩⟩

def clientB : remoteConnection := ⟨"B", ⟨"hostB", 1002⟩⟩

def clientC : remoteConnection := ⟨"C", ⟨"hostC", 1003⟩⟩

def neighborLeft : remoteConnection := ⟨"server0", ⟨"host0", 8080⟩⟩

def neighborRight : remoteConnection := ⟨"server2", ⟨"host2", 8082⟩⟩

/-- C5: a broadcast message is sent to exactly the connected clients
whose identifier differs from the source identifier; the sender entry
itself never receives it. -/
theorem relayUDP_broadcast_targets (s : serverState) (m : dataMessage)
    (h : m.destinationIdentifier = "broadcast") :
    relayUDP s m =
      (s.connectedClients.filter
        (fun c => c.identifier != m.sourceIdentifier)).map
        (fun c => RelayEvent.sendTo c.endpoint) ∧
    (∀ c ∈ s.connectedClients, c.identifier ≠ m.sourceIdentifier →
      RelayEvent.sendTo c.endpoint ∈ relayUDP s m) ∧
    (∀ ev ∈ relayUDP s m, ∃ c ∈ s.connectedClients,
      c.identifier ≠ m.sourceIdentifier ∧ ev = RelayEvent.sendTo c.endpoint) := by
  have heq : relayUDP s m =
      (s.connectedClients.filter
        (fun c => c.identifier != m.sourceIdentifier)).map
        (fun c => RelayEvent.sendTo c.endpoint) := by
    simp [relayUDP, h]
  refine ⟨heq, ?_, ?_⟩
  · intro c hc hne
    rw [heq]
    exact List.mem_map.mpr
      ⟨c, List.mem_filter.mpr ⟨hc, by simpa [bne_iff_ne] using hne⟩, rfl⟩
  · intro ev hev
    rw [heq] at hev
    obtain ⟨c, hcf, rfl⟩ := List.mem_map.mp hev
    obtain ⟨hc, hne⟩ := List.mem_filter.mp hcf
    exact ⟨c, hc, by simpa [bne_iff_ne] using hne, rfl⟩

def stateBroadcast : serverState :=
  { connectedClients := [clientA, clientB, clientC],
    leftAdjacentServerConnection := some neighborLeft,
    rightAdjacentServerConnection := some neighborRight,
    leftAdjacentServerConnectedClients := ["X"],
    rightAdjacentServerConnectedClients := ["Y"],
    messageQueue := [] }

def msgBroadcastFromA : dataMessage :=
  ⟨MessageType.CHAT, "A", "broadcast", MessagePayload.text "hello"⟩

/-- Witness for C5: with clients A, B, C and a broadcast from A, exactly
B and C receive it. -/
theorem relayUDP_broadcast_targets_witness :
    msgBroadcastFromA.destinationIdentifier = "broadcast" ∧
    relayUDP stateBroadcast msgBroadcastFromA =
      [RelayEvent.sendTo clientB.endpoint, RelayEvent.sendTo clientC.endpoint] :=
  ⟨by decide,
   ((relayUDP_broadcast_targets stateBroadcast msgBroadcastFromA
     (by decide)).1).trans (by decide)⟩

/-- C9: broadcast delivery only targets endpoints of entries of
connectedClients, and its outcome is independent of the rosters and the
neighbor connection slots, so a broadcast never travels to a neighbor
server. -/
theorem relayUDP_broadcast_localOnly (s t : serverState) (m : dataMessage)
    (h : m.destinationIdentifier = "broadcast")
    (hc : s.connectedClients = t.connectedClients) :
    relayUDP s m = relayUDP t m ∧
    (∀ ev ∈ relayUDP s m, ∃ c ∈ s.connectedClients,
      ev = RelayEvent.sendTo c.endpoint) := by
  have heq : relayUDP s m =
      (s.connectedClients.filter
        (fun c => c.identifier != m.sourceIdentifier)).map
        (fun c => RelayEvent.sendTo c.endpoint) := by
    simp [relayUDP, h]
  constructor
  · simp [relayUDP, h, hc]
  · intro ev hev
    rw [heq] at hev
    obtain ⟨c, hcf, rfl⟩ := List.mem_map.mp hev
    exact ⟨c, (List.mem_filter.mp hcf).1, rfl⟩

def stateBroadcastOtherNeighbors : serverState :=
  { connectedClients := [clientA, clientB, clientC],
    leftAdjacentServerConnection := none,
    rightAdjacentServerConnection := none,
    leftAdjacentServerConnectedClients := [],
    rightAdjacentServerConnectedClients := ["B", "D"],
    messageQueue := [] }

/-- Witness for C9: changing the rosters and neighbor slots leaves the
broadcast result unchanged. -/
theorem relayUDP_broadcast_localOnly_witness :
    relayUDP stateBroadcast msgBroadcastFromA =
      relayUDP stateBroadcastOtherNeighbors msgBroadcastFromA :=
  (relayUDP_broadcast_localOnly stateBroadcast stateBroadcastOtherNeighbors
    msgBroadcastFromA (by decide) (by decide)).1

/-- C6: a unicast message whose destination is a connected client (even
when the destination also appears in a neighbor roster) is sent exactly
once, to the first matching connected client, with no neighbor send. -/
theorem relayUDP_unicast_localPrecedence (s : serverState) (m : dataMessage)
    (hb : m.destinationIdentifier ≠ "broadcast")
    (hloc : ∃ c ∈ s.connectedClients, c.identifier = m.destinationIdentifier)
    (hro : m.destinationIdentifier ∈ s.leftAdjacentServerConnectedClients ∨
      m.destinationIdentifier ∈ s.rightAdjacentServerConnectedClients) :
    ∃ c, s.connectedClients.find?
        (fun x => x.identifier == m.destinationIdentifier) = some c ∧
      c ∈ s.connectedClients ∧ c.identifier = m.destinationIdentifier ∧
      relayUDP s m = [RelayEvent.sendTo c.endpoint] := by
  have hsome : (s.connectedClients.find?
      (fun x => x.identifier == m.destinationIdentifier)).isSome := by
    rw [List.find?_isSome]
    obtain ⟨c, hc, hid⟩ := hloc
    exact ⟨c, hc, by simpa using hid⟩
  obtain ⟨c, hfind⟩ := Option.isSome_iff_exists.mp hsome
  refine ⟨c, hfind, List.mem_of_find?_eq_some hfind,
    by simpa using List.find?_some hfind, ?_⟩
  simp [relayUDP, hb, hfind]

def stateLocalAndRoster : serverState :=
  { connectedClients := [clientA, clientB],
    leftAdjacentServerConnection := some neighborLeft,
    rightAdjacentServerConnection := some neighborRight,
    leftAdjacentServerConnectedClients := ["B"],
    rightAdjacentServerConnectedClients := [],
    messageQueue := [] }

def msgPrivateToB : dataMessage :=
  ⟨MessageType.PRIVATE_MESSAGE, "A", "B", MessagePayload.text "psst"⟩

/-- Witness for C6: B is both a connected client and in the left roster;
the message goes once to the endpoint of B, not to the neighbor. -/
theorem relayUDP_unicast_localPrecedence_witness :
    relayUDP stateLocalAndRoster msgPrivateToB =
      [RelayEvent.sendTo clientB.endpoint] := by
  obtain ⟨c, hfind, hmem, hid, heq⟩ :=
    relayUDP_unicast_localPrecedence stateLocalAndRoster msgPrivateToB
      (by decide) ⟨clientB, by decide, by decide⟩ (Or.inl (by decide))
  have hc : c = clientB := by
    have h2 : (stateLocalAndRoster.connectedClients.find?
        (fun x => x.identifier == msgPrivateToB.destinationIdentifier)) =
        some clientB := by decide
    exact Option.some.inj (hfind.symm.trans h2)
  rw [hc] at heq
  exact heq

/-- C7: a unicast message whose destination is absent from the connected
clients and from both rosters triggers no send at all; the message is
dropped with the destination-not-found notice. -/
theorem relayUDP_unknownDestination (s : serverState) (m : dataMessage)
    (hb : m.destinationIdentifier ≠ "broadcast")
    (hloc : ∀ c ∈ s.connectedClients, c.identifier ≠ m.destinationIdentifier)
    (hl : m.destinationIdentifier ∉ s.leftAdjacentServerConnectedClients)
    (hr : m.destinationIdentifier ∉ s.rightAdjacentServerConnectedClients) :
    relayUDP s m = [RelayEvent.droppedNotice m.destinationIdentifier] := by
  have hfind : s.connectedClients.find?
      (fun x => x.identifier == m.destinationIdentifier) = none := by
    rw [List.find?_eq_none]
    intro x hx
    simpa using hloc x hx
  cases hslot : s.leftAdjacentServerConnection with
  | none => simp [relayUDP, hb, hfind, hslot]
  | some lc => simp [relayUDP, hb, hfind, hslot, hl, hr]

def stateNoTarget : serverState :=
  { connectedClients := [clientA],
    leftAdjacentServerConnection := some neighborLeft,
    rightAdjacentServerConnection := some neighborRight,
    leftAdjacentServerConnectedClients := ["X"],
    rightAdjacentServerConnectedClients := ["Y"],
    messageQueue := [] }

def msgPrivateToZ : dataMessage :=
  ⟨MessageType.PRIVATE_MESSAGE, "A", "Z", MessagePayload.text "lost"⟩

/-- Witness for C7: destination Z is unknown everywhere, so the only
event is the dropped-message notice. -/
theorem relayUDP_unknownDestination_witness :
    relayUDP stateNoTarget msgPrivateToZ = [RelayEvent.droppedNotice "Z"] :=
  relayUDP_unknownDestination stateNoTarget msgPrivateToZ
    (by decide) (by decide) (by decide) (by decide)

/-- C4: a SYNC_LEFT message overwrites the right roster wholesale with
the payload identifier list and leaves the left roster alone; a
SYNC_RIGHT message does the symmetric replacement.  The old roster value
never influences the result, so an empty payload clears the roster. -/
theorem receiveSync_replacesRosterWholesale (s : serverState) (m : dataMessage) :
    (m.messageType = MessageType.SYNC_LEFT →
      (receiveClientsFromAdjacentServers s m).rightAdjacentServerConnectedClients =
        viewServerSyncPayload m ∧
      (receiveClientsFromAdjacentServers s m).leftAdjacentServerConnectedClients =
        s.leftAdjacentServerConnectedClients) ∧
    (m.messageType = MessageType.SYNC_RIGHT →
      (receiveClientsFromAdjacentServers s m).leftAdjacentServerConnectedClients =
        viewServerSyncPayload m ∧
      (receiveClientsFromAdjacentServers s m).rightAdjacentServerConnectedClients =
        s.rightAdjacentServerConnectedClients) := by
  constructor <;> intro h <;>
    simp [receiveClientsFromAdjacentServers, h]

def msgSyncLeftEmpty : dataMessage :=
  ⟨MessageType.SYNC_LEFT, "server2", "server1", MessagePayload.idList []⟩

/-- Witness for C4: an empty SYNC_LEFT payload clears the previously
non-empty right roster of the receiver and leaves the left roster. -/
theorem receiveSync_replacesRosterWholesale_witness :
    (receiveClientsFromAdjacentServers stateNoTarget
      msgSyncLeftEmpty).rightAdjacentServerConnectedClients = [] ∧
    (receiveClientsFromAdjacentServers stateNoTarget
      msgSyncLeftEmpty).leftAdjacentServerConnectedClients = ["X"] := by
  have h := (receiveSync_replacesRosterWholesale stateNoTarget
    msgSyncLeftEmpty).1 (by decide)
  exact ⟨h.1.trans (by decide), h.2.trans (by decide)⟩

/-- C8: per neighbor slot, a failed sync send never turns a Connected
slot into Absent; a step only ends Absent when it started Absent (and,
when the position is valid, only because the resolution attempt failed);
an invalid topology position leaves the slot untouched with no
resolution or send attempt, so it stays Absent forever. -/
theorem maintainSlot_stateMachine :
    (∀ (valid : Bool) (c : remoteConnection)
        (r : Option remoteConnection) (b : Bool),
      (maintainSlotStep valid (some c) r b).slot = some c) ∧
    (∀ (valid : Bool) (slot r : Option remoteConnection) (b : Bool),
      (maintainSlotStep valid slot r b).slot = none →
        slot = none ∧ (valid = true → r = none)) ∧
    (∀ (slot r : Option remoteConnection) (b : Bool),
      maintainSlotStep false slot r b = ⟨slot, false, false⟩) ∧
    (∀ ticks : List (Option remoteConnection × Bool),
      maintainSlotRun false none ticks = (none, false)) := by
  refine ⟨?_, ?_, ?_, ?_⟩
  · intro valid c r b
    cases valid <;> simp [maintainSlotStep]
  · intro valid slot r b h
    cases valid <;> cases slot <;> simp_all [maintainSlotStep]
  · intro slot r b
    simp [maintainSlotStep]
  · intro ticks
    induction ticks with
    | nil => rfl
    | cons hd tl ih =>
      obtain ⟨r, b⟩ := hd
      simp [maintainSlotRun, maintainSlotStep, ih]

/-- Witness for C8: a Connected slot survives a failed send, a failed
resolution from Absent leaves the slot Absent, and an invalid position
never resolves over a run of two ticks. -/
theorem maintainSlot_stateMachine_witness :
    (maintainSlotStep true (some neighborRight) none false).slot =
      some neighborRight ∧
    ((none : Option remoteConnection) = none ∧
      (true = true → (none : Option remoteConnection) = none)) ∧
    maintainSlotStep false (some neighborLeft) (some neighborRight) true =
      ⟨some neighborLeft, false, false⟩ ∧
    maintainSlotRun false none [(some neighborRight, true), (none, false)] =
      (none, false) :=
  ⟨maintainSlot_stateMachine.1 true neighborRight none false,
   maintainSlot_stateMachine.2.1 true none none false (by decide),
   maintainSlot_stateMachine.2.2.1 (some neighborLeft) (some neighborRight) true,
   maintainSlot_stateMachine.2.2.2 [(some neighborRight, true), (none, false)]⟩

/-- The C++ removeClientConnection call mutates only the
m_connectedClients member; this lifts the list operation to the full
registry state. -/
def removeClientConnectionS (s : serverState) (u : String) : serverState :=
  { s with connectedClients := removeClientConnection s.connectedClients u }

/-- C10: removeClientConnection drops at most one entry; whatever
remains is an in-order sublist of the old client list (so every kept
entry retains its identifier, endpoint and relative order), and the
rosters, neighbor slots and message queue are untouched. -/
theorem removeClientConnection_frame (s : serverState) (u : String) :
    ((removeClientConnectionS s u).connectedClients = s.connectedClients ∨
      ∃ c, c.identifier = u ∧
        s.connectedClients = c :: (removeClientConnectionS s u).connectedClients) ∧
    ((removeClientConnectionS s u).connectedClients.Sublist s.connectedClients) ∧
    s.connectedClients.length ≤
      (removeClientConnectionS s u).connectedClients.length + 1 ∧
    (removeClientConnectionS s u).leftAdjacentServerConnection =
      s.leftAdjacentServerConnection ∧
    (removeClientConnectionS s u).rightAdjacentServerConnection =
      s.rightAdjacentServerConnection ∧
    (removeClientConnectionS s u).leftAdjacentServerConnectedClients =
      s.leftAdjacentServerConnectedClients ∧
    (removeClientConnectionS s u).rightAdjacentServerConnectedClients =
      s.rightAdjacentServerConnectedClients ∧
    (removeClientConnectionS s u).messageQueue = s.messageQueue := by
  refine ⟨?_, ?_, ?_, rfl, rfl, rfl, rfl, rfl⟩
  · show removeClientConnection s.connectedClients u = s.connectedClients ∨ _
    cases hcs : s.connectedClients with
    | nil => left; simp [removeClientConnection]
    | cons c rest =>
      by_cases hid : c.identifier = u
      · right
        exact ⟨c, hid, by simp [removeClientConnectionS, removeClientConnection, hcs, hid]⟩
      · left
        simp [removeClientConnection, hcs, hid]
  · show (removeClientConnection s.connectedClients u).Sublist s.connectedClients
    cases hcs : s.connectedClients with
    | nil => simp [removeClientConnection]
    | cons c rest =>
      by_cases hid : c.identifier = u
      · simp [removeClientConnection, hid]
      · simp [removeClientConnection, hid]
  · show s.connectedClients.length ≤
      (removeClientConnection s.connectedClients u).length + 1
    cases hcs : s.connectedClients with
    | nil => simp [removeClientConnection]
    | cons c rest =>
      by_cases hid : c.identifier = u
      · simp [removeClientConnection, hid]
      · simp [removeClientConnection, hid]

/-! The two places where the source deviates from the documented relay
and registry behavior, each evaluated at a concrete input. -/

def stateRightOnlyNeighbor : serverState :=
  { connectedClients := [],
    leftAdjacentServerConnection := none,
    rightAdjacentServerConnection := some neighborRight,
    leftAdjacentServerConnectedClients := [],
    rightAdjacentServerConnectedClients := ["D"],
    messageQueue := [] }

def msgPrivateToD : dataMessage :=
  ⟨MessageType.PRIVATE_MESSAGE, "A", "D", MessagePayload.text "hi"⟩

/-- C1: in the source the right-roster search at server.cpp line 245 is
guarded by the LEFT connection pointer, so with no left neighbor, a live
right neighbor and destination D present only in the right roster, the
message is dropped instead of being forwarded to the right neighbor
endpoint. -/
theorem relayUDP_rightRosterGate_defect :
    relayUDP stateRightOnlyNeighbor msgPrivateToD =
      [RelayEvent.droppedNotice "D"] ∧
    RelayEvent.sendTo neighborRight.endpoint ∉
      relayUDP stateRightOnlyNeighbor msgPrivateToD := by
  decide

def stateTwoClients : serverState :=
  { connectedClients := [clientA, clientB],
    leftAdjacentServerConnection := none,
    rightAdjacentServerConnection := none,
    leftAdjacentServerConnectedClients := [],
    rightAdjacentServerConnectedClients := [],
    messageQueue := [] }

def msgDisconnectB : dataMessage :=
  ⟨MessageType.DISCONNECT, "B", "server1", MessagePayload.empty⟩

/-- C2: the break statement in removeClientConnection (server.cpp line
476) sits outside the if block, so only the head of the list is ever
examined: disconnecting B while the list is [A, B] leaves the list
unchanged, both for the bare call and for the Ingest dispatch of a
Disconnect message. -/
theorem removeClientConnection_misplacedBreak_defect :
    removeClientConnection [clientA, clientB] "B" = [clientA, clientB] ∧
    (ingestMessage stateTwoClients msgDisconnectB clientB.endpoint).connectedClients =
      [clientA, clientB] ∧
    removeClientConnection [clientB, clientA] "B" = [clientA] := by
  decide
